import Mathlib

/-!
Shallow embedding of the list/get read path of the `com.kong.connect` service
catalog: the domain structs (`domain/list_service.go`), the repository layer
(`ServiceRepository.GetAll`, `ServiceRepository.GetByID`,
`ServiceRepository.getVersionsByServiceID`), the business layer
(`ServiceService.GetServices`, `ServiceService.GetServiceByID`) and the
HTTP error mapping of `ServiceHandler.GetServiceByID`.

The SQL store is modelled as two in-memory tables (lists of rows); the SQL
clauses the repository builds are embedded by their semantics on those lists:
`LIKE` with percent wildcards is substring occurrence, `ORDER BY` is a sort by the allow-listed
column, `LIMIT ?/OFFSET ?` is `take`/`drop`.  Go `int` is modelled as `Int`;
timestamps are ticks (`Nat`).  Go error values are strings, exactly the
messages produced by `fmt.Errorf` in the source, since the handler layer
distinguishes errors by comparing those strings.
-/

namespace KongConnect

/-- `domain.Service` (domain/list_service.go). -/
structure Service where
  id : Int
  name : String
  description : String
  createdAt : Nat
  updatedAt : Nat
deriving DecidableEq, Repr

/-- `domain.ServiceVersion` (domain/list_service.go). -/
structure ServiceVersion where
  id : Int
  serviceID : Int
  version : String
  createdAt : Nat
deriving DecidableEq, Repr

/-- `domain.ServiceWithVersions` (domain/list_service.go). -/
structure ServiceWithVersions where
  service : Service
  versions : List ServiceVersion
deriving DecidableEq, Repr

/-- `domain.ServiceQuery` (domain/list_service.go). -/
structure ServiceQuery where
  search : String
  sortBy : String
  sortDir : String
  page : Int
  pageSize : Int
deriving DecidableEq, Repr

/-- `domain.ServiceListResponse` (domain/list_service.go). -/
structure ServiceListResponse where
  services : List ServiceWithVersions
  total : Int
  page : Int
  pageSize : Int
  totalPages : Int
deriving DecidableEq, Repr

/-- The relational store: the `services` and `service_versions` tables, rows
in store-native order. -/
structure DB where
  services : List Service
  serviceVersions : List ServiceVersion
deriving Repr

/-- Semantics of SQL `LIKE` with percent wildcards on both sides (binary collation): `pat` occurs in
`hay` as a contiguous substring. -/
def likeContains (hay pat : String) : Bool :=
  hay.data.tails.any (fun t => pat.data.isPrefixOf t)

/-- `strings.ToUpper` restricted to the per-character (ASCII) uppercase map:
faithful on the values the service layer ever passes here (`"asc"`/`"desc"`
after validation). -/
def strToUpper (s : String) : String :=
  ⟨s.data.map Char.toUpper⟩

/-- The BINARY collation of the store on text values: codepoint-lexicographic
order, which for UTF-8 agrees with byte order. -/
def collLE (a b : String) : Prop :=
  a.data ≤ b.data

instance (a b : String) : Decidable (collLE a b) :=
  inferInstanceAs (Decidable (a.data ≤ b.data))

/-- The WHERE clause built in `ServiceRepository.GetAll` (repository, lines
23-30): when `search` is empty no filter is emitted, otherwise
`s.name LIKE ? OR s.description LIKE ?` with the search term wrapped in percent wildcards. -/
def matchesSearch (search : String) (s : Service) : Bool :=
  if search = "" then true
  else likeContains s.name search || likeContains s.description search

/-- The ORDER BY clause built in `ServiceRepository.GetAll` (repository, lines
32-48) as a comparison: it starts from the default `s.name ASC`; only when
`SortBy` is nonempty is the direction computed (`DESC` iff
`ToUpper(SortDir) = "DESC"`), and the switch maps only the allow-listed
columns `name`, `created_at`, `updated_at`; any other nonempty `SortBy`
leaves the default `s.name ASC` in place. -/
def orderByLE (query : ServiceQuery) : Service → Service → Bool :=
  if query.sortBy = "" then
    fun a b => decide (collLE a.name b.name)
  else
    let desc := strToUpper query.sortDir = "DESC"
    if query.sortBy = "name" then
      if desc then fun a b => decide (collLE b.name a.name)
      else fun a b => decide (collLE a.name b.name)
    else if query.sortBy = "created_at" then
      if desc then fun a b => decide (b.createdAt ≤ a.createdAt)
      else fun a b => decide (a.createdAt ≤ b.createdAt)
    else if query.sortBy = "updated_at" then
      if desc then fun a b => decide (b.updatedAt ≤ a.updatedAt)
      else fun a b => decide (a.updatedAt ≤ b.updatedAt)
    else
      fun a b => decide (collLE a.name b.name)

/-- `ServiceRepository.getVersionsByServiceID` (repository, lines 136-160):
`SELECT ... FROM service_versions WHERE service_id = ? ORDER BY created_at
DESC`. -/
def getVersionsByServiceID (db : DB) (serviceID : Int) : List ServiceVersion :=
  (db.serviceVersions.filter (fun v => decide (v.serviceID = serviceID))).insertionSort
    (fun a b => b.createdAt ≤ a.createdAt)

/-- `ServiceRepository.GetAll` (repository, lines 22-100): count the rows
matching the WHERE clause, then select the matching rows in ORDER BY order
sliced by `LIMIT PageSize OFFSET (Page-1)*PageSize`, pairing each with its
versions.  `GetServices` only calls this with `Page ≥ 1` and `PageSize ≥ 1`,
so the `toNat` views of the limit and offset are faithful. -/
def ServiceRepository.GetAll (db : DB) (query : ServiceQuery) :
    List ServiceWithVersions × Int :=
  let matched := db.services.filter (matchesSearch query.search)
  let total := matched.length
  let sorted := matched.insertionSort (fun a b => orderByLE query a b = true)
  let offset := (query.page - 1) * query.pageSize
  let pageRows := (sorted.drop offset.toNat).take query.pageSize.toNat
  (pageRows.map (fun s => ⟨s, getVersionsByServiceID db s.id⟩), (total : Int))

/-- `ServiceRepository.GetByID` (repository, lines 103-133): `QueryRow`
returns the first row with the given id; `sql.ErrNoRows` is translated to the
non-error outcome `(nil, nil)`, embedded as `Except.ok none`.  On a hit, the
service is paired with its versions. -/
def ServiceRepository.GetByID (db : DB) (id : Int) :
    Except String (Option ServiceWithVersions) :=
  match (db.services.filter (fun s => decide (s.id = id))).head? with
  | none => Except.ok none
  | some s => Except.ok (some ⟨s, getVersionsByServiceID db s.id⟩)

/-- The validation/default block at the head of `ServiceService.GetServices`
(service, lines 29-43): `Page ≤ 0` becomes 1, `PageSize ≤ 0` becomes 12,
`PageSize > 100` becomes 100, and a `SortDir` other than exactly `"asc"` or
`"desc"` becomes `"asc"`. -/
def validateQuery (query : ServiceQuery) : ServiceQuery :=
  let q1 := if query.page ≤ 0 then { query with page := 1 } else query
  let q2 := if q1.pageSize ≤ 0 then { q1 with pageSize := 12 } else q1
  let q3 := if q2.pageSize > 100 then { q2 with pageSize := 100 } else q2
  if q3.sortDir ≠ "asc" ∧ q3.sortDir ≠ "desc" then { q3 with sortDir := "asc" }
  else q3

/-- `ServiceService.GetServices` (service, lines 28-61): validate the query,
run the repository query, and assemble the response with
`totalPages = int(math.Ceil(float64(total)/float64(pageSize)))`; on the
integer counts involved that ceiling is exact, embedded as the natural
ceiling division `(total + pageSize - 1) / pageSize`. -/
def ServiceService.GetServices (db : DB) (query0 : ServiceQuery) :
    ServiceListResponse :=
  let query := validateQuery query0
  let res := ServiceRepository.GetAll db query
  let totalPages : Nat :=
    (res.2.toNat + query.pageSize.toNat - 1) / query.pageSize.toNat
  { services := res.1
    total := res.2
    page := query.page
    pageSize := query.pageSize
    totalPages := (totalPages : Int) }

/-- `ServiceService.GetServiceByID` (service, lines 64-79), parametrized by
the repository lookup so that store failures (`repoGetByID` returning an
error) are expressible: a non-positive id fails immediately with
`"invalid service ID: %d"` without consulting the store; a store error is
wrapped as `"failed to get service: %v"`; the absence outcome of the store becomes
the `"service not found"` error; a hit is returned unchanged. -/
def ServiceService.GetServiceByID
    (repoGetByID : Int → Except String (Option ServiceWithVersions))
    (id : Int) : Except String ServiceWithVersions :=
  if id ≤ 0 then Except.error ("invalid service ID: " ++ toString id)
  else
    match repoGetByID id with
    | Except.error e => Except.error ("failed to get service: " ++ e)
    | Except.ok none => Except.error "service not found"
    | Except.ok (some s) => Except.ok s

/-- Transport-level outcome classes of the get-by-id handler. -/
inductive HttpOutcome where
  | ok (body : ServiceWithVersions)
  | notFound
  | serverError
deriving DecidableEq, Repr

/-- The error mapping of `ServiceHandler.GetServiceByID` (handler, lines
60-87), after routing and `Atoi` have produced an integer id: a successful
lookup is serialized; the error whose message is exactly
`"service not found"` becomes 404; every other error becomes 500. -/
def ServiceHandler.GetServiceByID
    (repoGetByID : Int → Except String (Option ServiceWithVersions))
    (id : Int) : HttpOutcome :=
  match ServiceService.GetServiceByID repoGetByID id with
  | Except.ok s => HttpOutcome.ok s
  | Except.error e =>
      if e = "service not found" then HttpOutcome.notFound
      else HttpOutcome.serverError

/-! ### Helper lemmas about query validation -/

theorem validateQuery_search (q : ServiceQuery) :
    (validateQuery q).search = q.search := by
  unfold validateQuery
  by_cases h1 : q.page ≤ 0 <;> by_cases h2 : q.pageSize ≤ 0 <;>
    by_cases h3 : q.pageSize > 100 <;>
    by_cases h4 : q.sortDir ≠ "asc" ∧ q.sortDir ≠ "desc" <;>
    simp [h1, h2, h3, h4]

theorem validateQuery_sortBy (q : ServiceQuery) :
    (validateQuery q).sortBy = q.sortBy := by
  unfold validateQuery
  by_cases h1 : q.page ≤ 0 <;> by_cases h2 : q.pageSize ≤ 0 <;>
    by_cases h3 : q.pageSize > 100 <;>
    by_cases h4 : q.sortDir ≠ "asc" ∧ q.sortDir ≠ "desc" <;>
    simp [h1, h2, h3, h4]

theorem validateQuery_page (q : ServiceQuery) :
    (validateQuery q).page = if q.page ≤ 0 then 1 else q.page := by
  unfold validateQuery
  by_cases h1 : q.page ≤ 0 <;> by_cases h2 : q.pageSize ≤ 0 <;>
    by_cases h3 : q.pageSize > 100 <;>
    by_cases h4 : q.sortDir ≠ "asc" ∧ q.sortDir ≠ "desc" <;>
    simp [h1, h2, h3, h4]

theorem validateQuery_pageSize (q : ServiceQuery) :
    (validateQuery q).pageSize =
      if q.pageSize ≤ 0 then 12
      else if q.pageSize > 100 then 100
      else q.pageSize := by
  unfold validateQuery
  by_cases h1 : q.page ≤ 0 <;> by_cases h2 : q.pageSize ≤ 0 <;>
    by_cases h3 : q.pageSize > 100 <;>
    by_cases h4 : q.sortDir ≠ "asc" ∧ q.sortDir ≠ "desc" <;>
    simp [h1, h2, h3, h4]

theorem validateQuery_sortDir_of_desc (q : ServiceQuery) (h : q.sortDir = "desc") :
    (validateQuery q).sortDir = "desc" := by
  unfold validateQuery
  by_cases h1 : q.page ≤ 0 <;> by_cases h2 : q.pageSize ≤ 0 <;>
    by_cases h3 : q.pageSize > 100 <;>
    simp [h1, h2, h3, h]

theorem validateQuery_sortDir_of_ne_desc (q : ServiceQuery) (h : q.sortDir ≠ "desc") :
    (validateQuery q).sortDir = "asc" := by
  unfold validateQuery
  by_cases h1 : q.page ≤ 0 <;> by_cases h2 : q.pageSize ≤ 0 <;>
    by_cases h3 : q.pageSize > 100 <;>
    by_cases h4 : q.sortDir = "asc" <;>
    simp [h1, h2, h3, h4, h]

theorem validateQuery_page_pos (q : ServiceQuery) : 1 ≤ (validateQuery q).page := by
  rw [validateQuery_page]
  split_ifs <;> omega

theorem validateQuery_pageSize_pos (q : ServiceQuery) :
    1 ≤ (validateQuery q).pageSize := by
  rw [validateQuery_pageSize]
  split_ifs <;> omega

theorem validateQuery_pageSize_le (q : ServiceQuery) :
    (validateQuery q).pageSize ≤ 100 := by
  rw [validateQuery_pageSize]
  split_ifs <;> omega

/-! ### C1 -/

/-- C1: `GetServices` normalizes pagination before use: an input page ≤ 0
becomes 1, an input pageSize ≤ 0 becomes 12, an input pageSize > 100 becomes
exactly 100; so the response always satisfies `page ≥ 1` and
`1 ≤ pageSize ≤ 100`, and the normalized values are the ones echoed in the
returned response. -/
theorem C1_pagination_normalization (db : DB) (q : ServiceQuery) :
    (ServiceService.GetServices db q).page = (if q.page ≤ 0 then 1 else q.page) ∧
    (ServiceService.GetServices db q).pageSize =
      (if q.pageSize ≤ 0 then 12
       else if q.pageSize > 100 then 100
       else q.pageSize) ∧
    1 ≤ (ServiceService.GetServices db q).page ∧
    1 ≤ (ServiceService.GetServices db q).pageSize ∧
    (ServiceService.GetServices db q).pageSize ≤ 100 := by
  have hpage : (ServiceService.GetServices db q).page = (validateQuery q).page := rfl
  have hsize : (ServiceService.GetServices db q).pageSize = (validateQuery q).pageSize := rfl
  refine ⟨?_, ?_, ?_, ?_, ?_⟩
  · rw [hpage, validateQuery_page]
  · rw [hsize, validateQuery_pageSize]
  · rw [hpage]; exact validateQuery_page_pos q
  · rw [hsize]; exact validateQuery_pageSize_pos q
  · rw [hsize]; exact validateQuery_pageSize_le q

/-! ### C2 -/

theorem natCeilDiv_eq_ceil (t p : Nat) (hp : 0 < p) :
    ((t + p - 1) / p : Nat) = ⌈(t : ℚ) / (p : ℚ)⌉₊ := by
  have hp' : (0 : ℚ) < (p : ℚ) := by exact_mod_cast hp
  apply le_antisymm
  · have hle : (t : ℚ) / (p : ℚ) ≤ (⌈(t : ℚ) / (p : ℚ)⌉₊ : ℚ) := Nat.le_ceil _
    have ht : (t : ℚ) ≤ (⌈(t : ℚ) / (p : ℚ)⌉₊ : ℚ) * (p : ℚ) := by
      rwa [div_le_iff₀ hp'] at hle
    have htn : t ≤ ⌈(t : ℚ) / (p : ℚ)⌉₊ * p := by exact_mod_cast ht
    have h2 : t + p - 1 < (⌈(t : ℚ) / (p : ℚ)⌉₊ + 1) * p := by
      rw [Nat.succ_mul]
      generalize ⌈(t : ℚ) / (p : ℚ)⌉₊ * p = k at htn ⊢
      omega
    have h3 : (t + p - 1) / p < ⌈(t : ℚ) / (p : ℚ)⌉₊ + 1 :=
      (Nat.div_lt_iff_lt_mul hp).mpr h2
    omega
  · apply Nat.ceil_le.mpr
    rw [div_le_iff₀ hp']
    have key : t ≤ ((t + p - 1) / p) * p := by
      rw [Nat.mul_comm]
      have hdm := Nat.div_add_mod (t + p - 1) p
      have hml : (t + p - 1) % p < p := Nat.mod_lt _ hp
      generalize p * ((t + p - 1) / p) = m at hdm ⊢
      generalize (t + p - 1) % p = r at hdm hml
      omega
    exact_mod_cast key

/-- C2: the `totalPages` field of the list response is the ceiling of
`total / pageSize` (with the effective, validated page size); in particular
an empty result set gives `totalPages = 0`. -/
theorem C2_totalPages_is_ceiling (db : DB) (q : ServiceQuery) :
    (ServiceService.GetServices db q).totalPages =
      ((⌈((ServiceService.GetServices db q).total : ℚ) /
          ((ServiceService.GetServices db q).pageSize : ℚ)⌉₊ : Nat) : Int) ∧
    ((ServiceService.GetServices db q).total = 0 →
      (ServiceService.GetServices db q).totalPages = 0) := by
  have hps : 1 ≤ (validateQuery q).pageSize := validateQuery_pageSize_pos q
  have hpn : 0 < (validateQuery q).pageSize.toNat := by omega
  have htp : (ServiceService.GetServices db q).totalPages =
      ((((ServiceRepository.GetAll db (validateQuery q)).2.toNat +
          (validateQuery q).pageSize.toNat - 1) /
         (validateQuery q).pageSize.toNat : Nat) : Int) := rfl
  have htot : (ServiceService.GetServices db q).total =
      (ServiceRepository.GetAll db (validateQuery q)).2 := rfl
  have hsz : (ServiceService.GetServices db q).pageSize =
      (validateQuery q).pageSize := rfl
  have hmain := natCeilDiv_eq_ceil
    ((ServiceRepository.GetAll db (validateQuery q)).2.toNat)
    ((validateQuery q).pageSize.toNat) hpn
  have htotnn : 0 ≤ (ServiceRepository.GetAll db (validateQuery q)).2 := by
    show (0 : Int) ≤ ((db.services.filter
      (matchesSearch (validateQuery q).search)).length : Int)
    exact_mod_cast Nat.zero_le _
  have hcast1 : (((ServiceRepository.GetAll db (validateQuery q)).2.toNat : ℚ)) =
      (((ServiceRepository.GetAll db (validateQuery q)).2 : Int) : ℚ) := by
    conv_rhs => rw [← Int.toNat_of_nonneg htotnn]
    norm_cast
  have hcast2 : (((validateQuery q).pageSize.toNat : ℚ)) =
      (((validateQuery q).pageSize : Int) : ℚ) := by
    conv_rhs =>
      rw [← Int.toNat_of_nonneg (by omega : (0:Int) ≤ (validateQuery q).pageSize)]
    norm_cast
  constructor
  · rw [htp, htot, hsz, hmain, hcast1, hcast2]
  · intro h0
    rw [htot] at h0
    rw [htp]
    have : (ServiceRepository.GetAll db (validateQuery q)).2.toNat = 0 := by
      omega
    rw [this]
    have hple : (validateQuery q).pageSize.toNat - 1 <
        (validateQuery q).pageSize.toNat := by omega
    simp [Nat.div_eq_of_lt hple]

/-! ### C6 -/

/-- C6: for every id ≤ 0 the query service fails immediately with the
`"invalid service ID: %d"` error, and the result does not depend on the
store at all (no store call is made). -/
theorem C6_invalid_id_no_store_call
    (repoGetByID : Int → Except String (Option ServiceWithVersions))
    (id : Int) (h : id ≤ 0) :
    ServiceService.GetServiceByID repoGetByID id =
      Except.error ("invalid service ID: " ++ toString id) ∧
    (∀ repo2, ServiceService.GetServiceByID repo2 id =
      ServiceService.GetServiceByID repoGetByID id) := by
  constructor
  · unfold ServiceService.GetServiceByID
    rw [if_pos h]
  · intro repo2
    unfold ServiceService.GetServiceByID
    rw [if_pos h, if_pos h]

/-- Witness for C6 at the concrete ids 0 and -1. -/
theorem C6_invalid_id_no_store_call_witness :
    ServiceService.GetServiceByID (ServiceRepository.GetByID ⟨[], []⟩) 0 =
      Except.error ("invalid service ID: " ++ toString (0 : Int)) ∧
    ServiceService.GetServiceByID (ServiceRepository.GetByID ⟨[], []⟩) (-1) =
      Except.error ("invalid service ID: " ++ toString (-1 : Int)) :=
  ⟨(C6_invalid_id_no_store_call _ 0 (by decide)).1,
   (C6_invalid_id_no_store_call _ (-1) (by decide)).1⟩

/-! ### C5 -/

/-- C5 counterexample: at id 0 (which the route pattern `[0-9]+` does admit),
the query service produces the "invalid id" error, and the handler maps it to
the generic server error, not to the not-found response the claim asserts. -/
theorem C5_counterexample :
    ServiceHandler.GetServiceByID (ServiceRepository.GetByID ⟨[], []⟩) 0 =
      HttpOutcome.serverError ∧
    ServiceHandler.GetServiceByID (ServiceRepository.GetByID ⟨[], []⟩) 0 ≠
      HttpOutcome.notFound := by
  exact ⟨by decide, by decide⟩

/-- C5 (amended): in the get-by-id transport mapping, only the error whose
message is exactly `"service not found"` maps to the not-found response; the
"invalid id" error and every other error map to the generic server error; a
successful lookup is returned as the OK outcome. -/
theorem C5_error_mapping
    (repoGetByID : Int → Except String (Option ServiceWithVersions))
    (id : Int) :
    (ServiceService.GetServiceByID repoGetByID id =
        Except.error "service not found" →
      ServiceHandler.GetServiceByID repoGetByID id = HttpOutcome.notFound) ∧
    (∀ e, ServiceService.GetServiceByID repoGetByID id = Except.error e →
      e ≠ "service not found" →
      ServiceHandler.GetServiceByID repoGetByID id = HttpOutcome.serverError) ∧
    (∀ s, ServiceService.GetServiceByID repoGetByID id = Except.ok s →
      ServiceHandler.GetServiceByID repoGetByID id = HttpOutcome.ok s) := by
  unfold ServiceHandler.GetServiceByID
  cases hres : ServiceService.GetServiceByID repoGetByID id with
  | ok s =>
      refine ⟨fun hce => ?_, fun e hce => ?_, fun s2 hok => ?_⟩
      · exact absurd hce (by simp)
      · exact absurd hce (by simp)
      · have : s = s2 := by injection hok
        rw [this]
  | error e =>
      refine ⟨fun hce => ?_, fun e2 hce hne => ?_, fun s2 hok => ?_⟩
      · have he : e = "service not found" := by injection hce
        simp [he]
      · have he : e = e2 := by injection hce
        simp [he, hne]
      · exact absurd hok (by simp)

/-- Witness for C5 (amended) at a concrete input: looking up a missing id in
an empty store yields the not-found response. -/
theorem C5_error_mapping_witness :
    ServiceHandler.GetServiceByID (ServiceRepository.GetByID ⟨[], []⟩) 5 =
      HttpOutcome.notFound :=
  (C5_error_mapping (ServiceRepository.GetByID ⟨[], []⟩) 5).1 (by rfl)

/-! ### C7 -/

/-- C7: for a positive id, the store lookup signals absence as a normal
non-error outcome (it always returns `ok`), the query service maps that
absence to the `"service not found"` error and a hit to the service with its
versions, and the not-found error is distinguishable from every wrapped store
failure. -/
theorem C7_absence_is_not_error (db : DB) (id : Int) (hpos : 0 < id) :
    (∃ v, ServiceRepository.GetByID db id = Except.ok v) ∧
    (ServiceRepository.GetByID db id = Except.ok none →
      ServiceService.GetServiceByID (ServiceRepository.GetByID db) id =
        Except.error "service not found") ∧
    (∀ s, ServiceRepository.GetByID db id = Except.ok (some s) →
      ServiceService.GetServiceByID (ServiceRepository.GetByID db) id =
        Except.ok s) ∧
    (∀ cause : String,
      ("failed to get service: " ++ cause) ≠ "service not found") := by
  have hid : ¬ id ≤ 0 := by omega
  refine ⟨?_, fun habs => ?_, fun s hsome => ?_, fun cause heq => ?_⟩
  · unfold ServiceRepository.GetByID
    cases (db.services.filter (fun s => decide (s.id = id))).head? with
    | none => exact ⟨none, rfl⟩
    | some s => exact ⟨some ⟨s, getVersionsByServiceID db s.id⟩, rfl⟩
  · unfold ServiceService.GetServiceByID
    rw [if_neg hid, habs]
  · unfold ServiceService.GetServiceByID
    rw [if_neg hid, hsome]
  · have hlen := congrArg String.length heq
    rw [String.length_append] at hlen
    have h1 : ("failed to get service: " : String).length = 23 := by decide
    have h2 : ("service not found" : String).length = 17 := by decide
    omega

/-- Witness for C7 at a concrete input: id 1 against an empty store. -/
theorem C7_absence_is_not_error_witness :
    ServiceService.GetServiceByID (ServiceRepository.GetByID ⟨[], []⟩) 1 =
      Except.error "service not found" :=
  (C7_absence_is_not_error ⟨[], []⟩ 1 (by decide)).2.1 (by rfl)

/-! ### Sorting infrastructure for C3, C4, C9 -/

theorem orderByLE_trans (q : ServiceQuery) (a b c : Service)
    (h1 : orderByLE q a b = true) (h2 : orderByLE q b c = true) :
    orderByLE q a c = true := by
  unfold orderByLE at *
  by_cases hb0 : q.sortBy = "" <;> by_cases hb1 : q.sortBy = "name" <;>
    by_cases hb2 : q.sortBy = "created_at" <;>
    by_cases hb3 : q.sortBy = "updated_at" <;>
    by_cases hd : strToUpper q.sortDir = "DESC" <;>
    simp [hb0, hb1, hb2, hb3, hd, collLE] at h1 h2 ⊢ <;>
    first
      | exact le_trans h1 h2
      | exact le_trans h2 h1

theorem orderByLE_total (q : ServiceQuery) (a b : Service) :
    orderByLE q a b = true ∨ orderByLE q b a = true := by
  unfold orderByLE
  by_cases hb0 : q.sortBy = "" <;> by_cases hb1 : q.sortBy = "name" <;>
    by_cases hb2 : q.sortBy = "created_at" <;>
    by_cases hb3 : q.sortBy = "updated_at" <;>
    by_cases hd : strToUpper q.sortDir = "DESC" <;>
    simp [hb0, hb1, hb2, hb3, hd, collLE] <;>
    exact le_total _ _

theorem getAll_fst (db : DB) (q : ServiceQuery) :
    (ServiceRepository.GetAll db q).1 =
      ((((db.services.filter (matchesSearch q.search)).insertionSort
          (fun a b => orderByLE q a b = true)).drop
            ((q.page - 1) * q.pageSize).toNat).take q.pageSize.toNat).map
        (fun s => ⟨s, getVersionsByServiceID db s.id⟩) := rfl

theorem getAll_snd (db : DB) (q : ServiceQuery) :
    (ServiceRepository.GetAll db q).2 =
      ((db.services.filter (matchesSearch q.search)).length : Int) := rfl

theorem getServices_services (db : DB) (q : ServiceQuery) :
    (ServiceService.GetServices db q).services =
      (ServiceRepository.GetAll db (validateQuery q)).1 := rfl

/-- The rows returned by `GetAll` are pairwise ordered by the comparison the
ORDER BY clause of the repository denotes. -/
theorem getAll_pairwise (db : DB) (q : ServiceQuery) :
    ((ServiceRepository.GetAll db q).1).Pairwise
      (fun x y => orderByLE q x.service y.service = true) := by
  haveI : IsTotal Service (fun a b => orderByLE q a b = true) :=
    ⟨orderByLE_total q⟩
  haveI : IsTrans Service (fun a b => orderByLE q a b = true) :=
    ⟨orderByLE_trans q⟩
  rw [getAll_fst]
  apply List.Pairwise.map
  · exact fun a b h => h
  · apply List.Pairwise.sublist
      ((List.take_sublist _ _).trans (List.drop_sublist _ _))
    exact List.sorted_insertionSort _ _

theorem getServices_pairwise (db : DB) (q : ServiceQuery) :
    ((ServiceService.GetServices db q).services).Pairwise
      (fun x y => orderByLE (validateQuery q) x.service y.service = true) := by
  rw [getServices_services]
  exact getAll_pairwise db (validateQuery q)

/-- Evaluation of the ORDER BY comparison once the sort field and direction
are known. -/
theorem orderByLE_eval_name (q : ServiceQuery) (hb : q.sortBy = "name")
    (a b : Service) :
    orderByLE q a b =
      (if strToUpper q.sortDir = "DESC" then decide (collLE b.name a.name)
       else decide (collLE a.name b.name)) := by
  unfold orderByLE
  by_cases hd : strToUpper q.sortDir = "DESC" <;> simp [hb, hd]

theorem orderByLE_eval_created (q : ServiceQuery)
    (hb : q.sortBy = "created_at") (a b : Service) :
    orderByLE q a b =
      (if strToUpper q.sortDir = "DESC" then decide (b.createdAt ≤ a.createdAt)
       else decide (a.createdAt ≤ b.createdAt)) := by
  unfold orderByLE
  by_cases hd : strToUpper q.sortDir = "DESC" <;> simp [hb, hd]

theorem orderByLE_eval_updated (q : ServiceQuery)
    (hb : q.sortBy = "updated_at") (a b : Service) :
    orderByLE q a b =
      (if strToUpper q.sortDir = "DESC" then decide (b.updatedAt ≤ a.updatedAt)
       else decide (a.updatedAt ≤ b.updatedAt)) := by
  unfold orderByLE
  by_cases hd : strToUpper q.sortDir = "DESC" <;> simp [hb, hd]

/-- Evaluation of the ORDER BY comparison when the sort field is not in the
allow-list (including the empty string): the default `s.name ASC` stands,
whatever the direction. -/
theorem orderByLE_eval_fallback (q : ServiceQuery) (h1 : q.sortBy ≠ "name")
    (h2 : q.sortBy ≠ "created_at") (h3 : q.sortBy ≠ "updated_at")
    (a b : Service) :
    orderByLE q a b = decide (collLE a.name b.name) := by
  unfold orderByLE
  by_cases hb0 : q.sortBy = "" <;> simp [hb0, h1, h2, h3]

/-- Witness for C2 at concrete inputs: an empty store gives 0 total pages,
and 8 services at page size 5 give 2. -/
theorem C2_totalPages_is_ceiling_witness :
    (ServiceService.GetServices ⟨[], []⟩ ⟨"", "", "", 1, 5⟩).totalPages = 0 ∧
    (ServiceService.GetServices
      ⟨[⟨1, "a", "", 0, 0⟩, ⟨2, "b", "", 0, 0⟩, ⟨3, "c", "", 0, 0⟩,
        ⟨4, "d", "", 0, 0⟩, ⟨5, "e", "", 0, 0⟩, ⟨6, "f", "", 0, 0⟩,
        ⟨7, "g", "", 0, 0⟩, ⟨8, "h", "", 0, 0⟩], []⟩
      ⟨"", "", "", 1, 5⟩).totalPages = 2 :=
  ⟨(C2_totalPages_is_ceiling ⟨[], []⟩ ⟨"", "", "", 1, 5⟩).2 (by decide),
   by decide⟩

/-! ### C3 -/

/-- C3 counterexample: with sortDir "DESC" (case-insensitively "desc") and
sortBy "name", the returned page is ordered ascending, not descending, so
the claim fails as stated: the case-sensitive check of the service layer
turns "DESC" into "asc" before the case-insensitive comparison of the
repository ever sees it. -/
theorem C3_counterexample :
    ¬ (((ServiceService.GetServices
        ⟨[⟨2, "B", "db", 30, 40⟩, ⟨1, "A", "da", 10, 20⟩], []⟩
        ⟨"", "name", "DESC", 1, 10⟩).services).Pairwise
          (fun x y => collLE y.service.name x.service.name)) := by
  decide

/-- C3 (amended): through `GetServices` the sort direction is interpreted
case-sensitively: the effective direction is descending exactly when sortDir
is exactly "desc"; every other value — including other casings such as
"DESC" — falls back to "asc" and the results come back ascending. -/
theorem C3_sortDir_case_sensitive (db : DB) (q : ServiceQuery)
    (hb : q.sortBy = "name") :
    ((validateQuery q).sortDir = "desc" ↔ q.sortDir = "desc") ∧
    (q.sortDir = "desc" →
      ((ServiceService.GetServices db q).services).Pairwise
        (fun x y => collLE y.service.name x.service.name)) ∧
    (q.sortDir ≠ "desc" →
      ((ServiceService.GetServices db q).services).Pairwise
        (fun x y => collLE x.service.name y.service.name)) := by
  have hb' : (validateQuery q).sortBy = "name" := by
    rw [validateQuery_sortBy]; exact hb
  refine ⟨⟨fun h => ?_, fun h => validateQuery_sortDir_of_desc q h⟩,
    fun hd => ?_, fun hd => ?_⟩
  · by_contra hne
    rw [validateQuery_sortDir_of_ne_desc q hne] at h
    exact absurd h (by decide)
  · have hdU : strToUpper (validateQuery q).sortDir = "DESC" := by
      rw [validateQuery_sortDir_of_desc q hd]; decide
    refine (getServices_pairwise db q).imp ?_
    intro x y h
    rw [orderByLE_eval_name _ hb', if_pos hdU] at h
    exact of_decide_eq_true h
  · have hdU : ¬ strToUpper (validateQuery q).sortDir = "DESC" := by
      rw [validateQuery_sortDir_of_ne_desc q hd]; decide
    refine (getServices_pairwise db q).imp ?_
    intro x y h
    rw [orderByLE_eval_name _ hb', if_neg hdU] at h
    exact of_decide_eq_true h

/-- Witness for C3 (amended): sortDir exactly "desc" sorts descending. -/
theorem C3_sortDir_case_sensitive_witness :
    ((ServiceService.GetServices
        ⟨[⟨2, "B", "db", 30, 40⟩, ⟨1, "A", "da", 10, 20⟩], []⟩
        ⟨"", "name", "desc", 1, 10⟩).services).Pairwise
      (fun x y => collLE y.service.name x.service.name) :=
  (C3_sortDir_case_sensitive
    ⟨[⟨2, "B", "db", 30, 40⟩, ⟨1, "A", "da", 10, 20⟩], []⟩
    ⟨"", "name", "desc", 1, 10⟩ rfl).2.1 rfl

/-! ### C4 -/

/-- C4 counterexample: with the invalid sort field "foo" and sortDir exactly
"desc", the fallback sorts by name ascending — it does not honor the
direction, so the claim fails as stated. -/
theorem C4_counterexample :
    ¬ (((ServiceService.GetServices
        ⟨[⟨2, "B", "db", 30, 40⟩, ⟨1, "A", "da", 10, 20⟩], []⟩
        ⟨"", "foo", "desc", 1, 10⟩).services).Pairwise
          (fun x y => collLE y.service.name x.service.name)) := by
  decide

/-- C4 (amended): sortBy is validated against the allow-list {name,
created_at, updated_at}: each value in the set sorts by that column in the
normalized sortDir direction, but any other value (or an empty sortBy) falls
back to the repository default `s.name ASC` — sorting by name ascending
regardless of sortDir. -/
theorem C4_sortBy_allowlist (db : DB) (q : ServiceQuery) :
    ((q.sortBy ≠ "name" ∧ q.sortBy ≠ "created_at" ∧ q.sortBy ≠ "updated_at") →
      ((ServiceService.GetServices db q).services).Pairwise
        (fun x y => collLE x.service.name y.service.name)) ∧
    (q.sortBy = "name" → q.sortDir = "desc" →
      ((ServiceService.GetServices db q).services).Pairwise
        (fun x y => collLE y.service.name x.service.name)) ∧
    (q.sortBy = "name" → q.sortDir ≠ "desc" →
      ((ServiceService.GetServices db q).services).Pairwise
        (fun x y => collLE x.service.name y.service.name)) ∧
    (q.sortBy = "created_at" → q.sortDir = "desc" →
      ((ServiceService.GetServices db q).services).Pairwise
        (fun x y => y.service.createdAt ≤ x.service.createdAt)) ∧
    (q.sortBy = "created_at" → q.sortDir ≠ "desc" →
      ((ServiceService.GetServices db q).services).Pairwise
        (fun x y => x.service.createdAt ≤ y.service.createdAt)) ∧
    (q.sortBy = "updated_at" → q.sortDir = "desc" →
      ((ServiceService.GetServices db q).services).Pairwise
        (fun x y => y.service.updatedAt ≤ x.service.updatedAt)) ∧
    (q.sortBy = "updated_at" → q.sortDir ≠ "desc" →
      ((ServiceService.GetServices db q).services).Pairwise
        (fun x y => x.service.updatedAt ≤ y.service.updatedAt)) := by
  have hsortBy := validateQuery_sortBy q
  refine ⟨fun ⟨h1, h2, h3⟩ => ?_, fun hb hd => ?_, fun hb hd => ?_,
    fun hb hd => ?_, fun hb hd => ?_, fun hb hd => ?_, fun hb hd => ?_⟩
  · refine (getServices_pairwise db q).imp ?_
    intro x y h
    rw [orderByLE_eval_fallback _ (hsortBy ▸ h1) (hsortBy ▸ h2)
      (hsortBy ▸ h3)] at h
    exact of_decide_eq_true h
  · have hdU : strToUpper (validateQuery q).sortDir = "DESC" := by
      rw [validateQuery_sortDir_of_desc q hd]; decide
    refine (getServices_pairwise db q).imp ?_
    intro x y h
    rw [orderByLE_eval_name _ (hsortBy.trans hb), if_pos hdU] at h
    exact of_decide_eq_true h
  · have hdU : ¬ strToUpper (validateQuery q).sortDir = "DESC" := by
      rw [validateQuery_sortDir_of_ne_desc q hd]; decide
    refine (getServices_pairwise db q).imp ?_
    intro x y h
    rw [orderByLE_eval_name _ (hsortBy.trans hb), if_neg hdU] at h
    exact of_decide_eq_true h
  · have hdU : strToUpper (validateQuery q).sortDir = "DESC" := by
      rw [validateQuery_sortDir_of_desc q hd]; decide
    refine (getServices_pairwise db q).imp ?_
    intro x y h
    rw [orderByLE_eval_created _ (hsortBy.trans hb), if_pos hdU] at h
    exact of_decide_eq_true h
  · have hdU : ¬ strToUpper (validateQuery q).sortDir = "DESC" := by
      rw [validateQuery_sortDir_of_ne_desc q hd]; decide
    refine (getServices_pairwise db q).imp ?_
    intro x y h
    rw [orderByLE_eval_created _ (hsortBy.trans hb), if_neg hdU] at h
    exact of_decide_eq_true h
  · have hdU : strToUpper (validateQuery q).sortDir = "DESC" := by
      rw [validateQuery_sortDir_of_desc q hd]; decide
    refine (getServices_pairwise db q).imp ?_
    intro x y h
    rw [orderByLE_eval_updated _ (hsortBy.trans hb), if_pos hdU] at h
    exact of_decide_eq_true h
  · have hdU : ¬ strToUpper (validateQuery q).sortDir = "DESC" := by
      rw [validateQuery_sortDir_of_ne_desc q hd]; decide
    refine (getServices_pairwise db q).imp ?_
    intro x y h
    rw [orderByLE_eval_updated _ (hsortBy.trans hb), if_neg hdU] at h
    exact of_decide_eq_true h

/-- Witness for C4 (amended): the invalid sort field "foo" falls back to
sorting by name ascending. -/
theorem C4_sortBy_allowlist_witness :
    ((ServiceService.GetServices
        ⟨[⟨2, "B", "db", 30, 40⟩, ⟨1, "A", "da", 10, 20⟩], []⟩
        ⟨"", "foo", "desc", 1, 10⟩).services).Pairwise
      (fun x y => collLE x.service.name y.service.name) :=
  (C4_sortBy_allowlist
    ⟨[⟨2, "B", "db", 30, 40⟩, ⟨1, "A", "da", 10, 20⟩], []⟩
    ⟨"", "foo", "desc", 1, 10⟩).1 (by decide)

/-! ### C8 -/

theorem likeContains_empty (hay : String) : likeContains hay "" = true := by
  unfold likeContains
  rw [List.any_eq_true]
  refine ⟨hay.data, ?_, ?_⟩
  · rw [List.mem_tails]
  · exact List.isPrefixOf_nil_left

theorem getAll_mem_service (db : DB) (q : ServiceQuery)
    (item : ServiceWithVersions)
    (h : item ∈ (ServiceRepository.GetAll db q).1) :
    item.service ∈ db.services.filter (matchesSearch q.search) := by
  rw [getAll_fst] at h
  obtain ⟨s, hs, rfl⟩ := List.mem_map.mp h
  have hs2 : s ∈ (db.services.filter (matchesSearch q.search)).insertionSort
      (fun a b => orderByLE q a b = true) :=
    ((List.take_sublist _ _).trans (List.drop_sublist _ _)).mem hs
  exact (List.mem_insertionSort _).mp hs2

/-- C8: one and the same WHERE clause governs both the returned count and
the returned page (count = length of the matched set, every returned row
belongs to the matched set), the empty search matches every service, and the
filter holds exactly when the search string occurs as a substring of the
name or of the description. -/
theorem C8_search_substring_filter (db : DB) (q : ServiceQuery) :
    (ServiceRepository.GetAll db q).2 =
      ((db.services.filter (matchesSearch q.search)).length : Int) ∧
    (∀ item, item ∈ (ServiceRepository.GetAll db q).1 →
      item.service ∈ db.services.filter (matchesSearch q.search)) ∧
    (∀ s : Service, matchesSearch "" s = true) ∧
    (∀ search : String, ∀ s : Service,
      matchesSearch search s =
        (likeContains s.name search || likeContains s.description search)) := by
  refine ⟨getAll_snd db q, fun item h => getAll_mem_service db q item h,
    fun s => rfl, fun search s => ?_⟩
  unfold matchesSearch
  by_cases hs : search = ""
  · simp [hs, likeContains_empty]
  · rw [if_neg hs]

/-- Witness for C8: searching "Contact" returns only the matching service,
which is in the matched set. -/
theorem C8_search_substring_filter_witness :
    (⟨⟨1, "Contact Us", "lorem", 0, 0⟩, []⟩ : ServiceWithVersions).service ∈
      ([⟨1, "Contact Us", "lorem", 0, 0⟩, ⟨2, "Other", "x", 0, 0⟩] :
        List Service).filter (matchesSearch "Contact") :=
  (C8_search_substring_filter
    ⟨[⟨1, "Contact Us", "lorem", 0, 0⟩, ⟨2, "Other", "x", 0, 0⟩], []⟩
    ⟨"Contact", "", "", 1, 10⟩).2.1 ⟨⟨1, "Contact Us", "lorem", 0, 0⟩, []⟩
    (by decide)

/-! ### C9 -/

theorem getVersions_perm (db : DB) (sid : Int) :
    (getVersionsByServiceID db sid).Perm
      (db.serviceVersions.filter (fun v => decide (v.serviceID = sid))) :=
  List.perm_insertionSort _ _

theorem getVersions_sorted (db : DB) (sid : Int) :
    (getVersionsByServiceID db sid).Pairwise
      (fun a b => b.createdAt ≤ a.createdAt) := by
  haveI : IsTotal ServiceVersion (fun a b => b.createdAt ≤ a.createdAt) :=
    ⟨fun a b => le_total _ _⟩
  haveI : IsTrans ServiceVersion (fun a b => b.createdAt ≤ a.createdAt) :=
    ⟨fun a b c h1 h2 => le_trans h2 h1⟩
  exact List.sorted_insertionSort _ _

/-- C9: every service returned by the list or the get-by-id path carries
exactly the versions owned by it (as a permutation of the ownership filter
over the versions table), ordered by createdAt descending. -/
theorem C9_versions_owned_and_sorted (db : DB) :
    (∀ q item, item ∈ (ServiceService.GetServices db q).services →
      item.versions.Perm (db.serviceVersions.filter
        (fun v => decide (v.serviceID = item.service.id))) ∧
      item.versions.Pairwise (fun a b => b.createdAt ≤ a.createdAt)) ∧
    (∀ id item,
      ServiceService.GetServiceByID (ServiceRepository.GetByID db) id =
        Except.ok item →
      item.versions.Perm (db.serviceVersions.filter
        (fun v => decide (v.serviceID = item.service.id))) ∧
      item.versions.Pairwise (fun a b => b.createdAt ≤ a.createdAt)) := by
  constructor
  · intro q item hmem
    rw [getServices_services, getAll_fst] at hmem
    obtain ⟨s, _, rfl⟩ := List.mem_map.mp hmem
    exact ⟨getVersions_perm db s.id, getVersions_sorted db s.id⟩
  · intro id item hok
    unfold ServiceService.GetServiceByID at hok
    by_cases hid : id ≤ 0
    · rw [if_pos hid] at hok
      exact absurd hok (by simp)
    · rw [if_neg hid] at hok
      unfold ServiceRepository.GetByID at hok
      cases hh : (db.services.filter (fun s => decide (s.id = id))).head? with
      | none =>
          rw [hh] at hok
          exact absurd hok (by simp)
      | some s =>
          rw [hh] at hok
          have : (⟨s, getVersionsByServiceID db s.id⟩ : ServiceWithVersions) =
              item := by
            simpa using hok
          rw [← this]
          exact ⟨getVersions_perm db s.id, getVersions_sorted db s.id⟩

/-- Witness for C9 at a concrete store: a service with two versions gets
them newest-first. -/
theorem C9_versions_owned_and_sorted_witness :
    ((⟨⟨1, "S", "d", 0, 0⟩, [⟨2, 1, "2.0", 9⟩, ⟨1, 1, "1.0", 5⟩]⟩ :
        ServiceWithVersions).versions).Perm
      (([⟨1, 1, "1.0", 5⟩, ⟨2, 1, "2.0", 9⟩] : List ServiceVersion).filter
        (fun v => decide (v.serviceID = (1 : Int)))) ∧
    ((⟨⟨1, "S", "d", 0, 0⟩, [⟨2, 1, "2.0", 9⟩, ⟨1, 1, "1.0", 5⟩]⟩ :
        ServiceWithVersions).versions).Pairwise
      (fun a b => b.createdAt ≤ a.createdAt) :=
  (C9_versions_owned_and_sorted
    ⟨[⟨1, "S", "d", 0, 0⟩], [⟨1, 1, "1.0", 5⟩, ⟨2, 1, "2.0", 9⟩]⟩).2
    1 ⟨⟨1, "S", "d", 0, 0⟩, [⟨2, 1, "2.0", 9⟩, ⟨1, 1, "1.0", 5⟩]⟩ (by rfl)

/-! ### C10 -/

/-- C10: when the normalized page lies past the last page of matching rows,
the call still succeeds and returns an empty page together with the true
total and the requested (normalized, never clamped) page and pageSize. -/
theorem C10_page_past_end (db : DB) (q : ServiceQuery)
    (h : (ServiceService.GetServices db q).total ≤
      ((ServiceService.GetServices db q).page - 1) *
        (ServiceService.GetServices db q).pageSize) :
    (ServiceService.GetServices db q).services = [] ∧
    (ServiceService.GetServices db q).total =
      ((db.services.filter (matchesSearch q.search)).length : Int) ∧
    (ServiceService.GetServices db q).page =
      (if q.page ≤ 0 then 1 else q.page) ∧
    (ServiceService.GetServices db q).pageSize =
      (if q.pageSize ≤ 0 then 12 else if q.pageSize > 100 then 100
       else q.pageSize) := by
  have hpage : (ServiceService.GetServices db q).page =
      (validateQuery q).page := rfl
  have hsize : (ServiceService.GetServices db q).pageSize =
      (validateQuery q).pageSize := rfl
  have htot : (ServiceService.GetServices db q).total =
      ((db.services.filter
        (matchesSearch (validateQuery q).search)).length : Int) :=
    getAll_snd db (validateQuery q)
  refine ⟨?_, ?_, ?_, ?_⟩
  · rw [getServices_services, getAll_fst]
    have hp := validateQuery_page_pos q
    have hps := validateQuery_pageSize_pos q
    rw [hpage, hsize, htot] at h
    have hnn : (0 : Int) ≤
        ((validateQuery q).page - 1) * (validateQuery q).pageSize :=
      mul_nonneg (by omega) (by omega)
    have hlen : ((db.services.filter
        (matchesSearch (validateQuery q).search)).insertionSort
          (fun a b => orderByLE (validateQuery q) a b = true)).length =
        (db.services.filter
          (matchesSearch (validateQuery q).search)).length :=
      List.length_insertionSort _ _
    generalize hP : ((validateQuery q).page - 1) * (validateQuery q).pageSize
      = P at h hnn ⊢
    have hdrop : ((db.services.filter
        (matchesSearch (validateQuery q).search)).insertionSort
          (fun a b => orderByLE (validateQuery q) a b = true)).drop P.toNat
        = [] := by
      apply List.drop_eq_nil_of_le
      rw [hlen]
      omega
    rw [hdrop]
    simp
  · rw [htot, validateQuery_search]
  · rw [hpage, validateQuery_page]
  · rw [hsize, validateQuery_pageSize]

/-- Witness for C10: a single service, requested page 5 of size 10. -/
theorem C10_page_past_end_witness :
    (ServiceService.GetServices ⟨[⟨1, "A", "x", 0, 0⟩], []⟩
      ⟨"", "", "", 5, 10⟩).services = [] :=
  (C10_page_past_end ⟨[⟨1, "A", "x", 0, 0⟩], []⟩
    ⟨"", "", "", 5, 10⟩ (by decide)).1

end KongConnect
